import Mathlib

/-!
Verification of the Felix Python AST helper
(`packages/code-intelligence/src/code-parser/parsers/python_ast_helper.py`,
with the batch-only variant `apps/server/python_ast_helper.py`).

The development shallowly embeds the helper: Python runtime values that can
flow through `json.loads` / `json.dumps` and the AST serializer become the
`PyVal` family; the fragment of the CPython abstract syntax exercised by the
claims becomes the `Ast` family (field order follows each node type's
`_fields` declaration); the functions `node_to_dict`,
`extract_imports_from_ast`, `parse_content`, `parse_file`, `extract_imports`,
`resolve_module`, `run_server` and `main` are translated one to one.
External effects (the filesystem and the host's module lookup system) are an
explicit environment `Env`; `json.dumps` is a function into `Option String`
that fails exactly on values the real encoder rejects (bytes); an uncaught
Python exception is the absence of a result (`Option.none`), which in the
session loop is the `crashed` outcome.
-/

/- Python values as they appear in this program: the JSON-representable
values produced by `json.loads`, plus `bytes`, which a parsed `Constant`
node can carry and which `json.dumps` rejects.  Dicts are insertion-ordered
key/value lists, exactly like Python 3.7+ dicts. -/
mutual
inductive PyVal : Type where
  | none : PyVal
  | bool (b : Bool) : PyVal
  | int (n : Int) : PyVal
  | str (s : String) : PyVal
  | bytes (bs : List Nat) : PyVal
  | list (xs : PyList) : PyVal
  | dict (kvs : PyDict) : PyVal
inductive PyList : Type where
  | nil : PyList
  | cons (hd : PyVal) (tl : PyList) : PyList
inductive PyDict : Type where
  | nil : PyDict
  | cons (k : String) (v : PyVal) (tl : PyDict) : PyDict
end

/-- Build a `PyDict` from a Lean list of key/value pairs (insertion order). -/
def pdOf : List (String × PyVal) → PyDict
  | [] => PyDict.nil
  | (k, v) :: tl => PyDict.cons k v (pdOf tl)

/-- Build a `PyList` from a Lean list. -/
def plOf : List PyVal → PyList
  | [] => PyList.nil
  | v :: tl => PyList.cons v (plOf tl)

/-- `d.get(key)`: Python `dict.get` with its default of `None` — an absent
key and a key stored with value `None` are indistinguishable. -/
def dget : PyDict → String → PyVal
  | PyDict.nil, _ => PyVal.none
  | PyDict.cons k v tl, key => if k = key then v else dget tl key

/-- Presence-aware lookup (used to model `d.get(key, default)`). -/
def dgetOpt : PyDict → String → Option PyVal
  | PyDict.nil, _ => Option.none
  | PyDict.cons k v tl, key => if k = key then some v else dgetOpt tl key

/-- `d.get(key, default)`. -/
def dgetD (d : PyDict) (key : String) (dflt : PyVal) : PyVal :=
  (dgetOpt d key).getD dflt

/-- `d[key] = v`: overwrite in place when the key exists (keeping its
position, as Python dicts do), otherwise append. -/
def dset : PyDict → String → PyVal → PyDict
  | PyDict.nil, key, v => PyDict.cons key v PyDict.nil
  | PyDict.cons k w tl, key, v =>
    if k = key then PyDict.cons k v tl else PyDict.cons k w (dset tl key v)

/-- View a `PyVal` as a dict (the empty dict for non-dicts). -/
def asDict : PyVal → PyDict
  | PyVal.dict kvs => kvs
  | _ => PyDict.nil

/-- View a `PyVal` as an integer (0 for non-integers). -/
def asInt : PyVal → Int
  | PyVal.int n => n
  | _ => 0

/-- `response[key] = v` on a response value (responses are always dicts; a
non-dict is returned unchanged, a case the program never reaches). -/
def pySet (r : PyVal) (key : String) (v : PyVal) : PyVal :=
  match r with
  | PyVal.dict kvs => PyVal.dict (dset kvs key v)
  | other => other

/-- `x is None`. -/
def isNone : PyVal → Bool
  | PyVal.none => true
  | _ => false

/-- Python truthiness (`not x` / `if x:`). -/
def pyFalsy : PyVal → Bool
  | PyVal.none => true
  | PyVal.bool b => !b
  | PyVal.int n => n == 0
  | PyVal.str s => s == ""
  | PyVal.bytes bs => bs.isEmpty
  | PyVal.list PyList.nil => true
  | PyVal.list (PyList.cons _ _) => false
  | PyVal.dict PyDict.nil => true
  | PyVal.dict (PyDict.cons _ _ _) => false

/-- Python `a or b`. -/
def pyOr (a b : PyVal) : PyVal :=
  if pyFalsy a then b else a

/-- `command == "name"` where `command` is an arbitrary decoded value. -/
def cmdIs (c : PyVal) (s : String) : Bool :=
  match c with
  | PyVal.str t => t == s
  | _ => false

/-- Key present in a dict. -/
def hasKey (r : PyVal) (key : String) : Bool :=
  (dgetOpt (asDict r) key).isSome

/-- JSON string quoting as `json.dumps` performs it (the escapes exercised
by this program's strings). -/
def jescapeChar (c : Char) : String :=
  if c = '"' then "\\\""
  else if c = '\\' then "\\\\"
  else if c = '\n' then "\\n"
  else String.singleton c

/-- Quote a string for JSON output. -/
def jstr (s : String) : String :=
  "\"" ++ String.join (s.toList.map jescapeChar) ++ "\""

/- `json.dumps` with its default separators: total on JSON-representable
values, and `Option.none` (a raised `TypeError`) on any value containing
`bytes`, which the standard encoder does not accept. -/
mutual
def dumps : PyVal → Option String
  | PyVal.none => some "null"
  | PyVal.bool true => some "true"
  | PyVal.bool false => some "false"
  | PyVal.int n => some (toString n)
  | PyVal.str s => some (jstr s)
  | PyVal.bytes _ => Option.none
  | PyVal.list xs => (dumpsL xs).map (fun s => "[" ++ s ++ "]")
  | PyVal.dict kvs => (dumpsD kvs).map (fun s => "\x7b" ++ s ++ "\x7d")
def dumpsL : PyList → Option String
  | PyList.nil => some ""
  | PyList.cons x PyList.nil => dumps x
  | PyList.cons x (PyList.cons y tl) =>
    match dumps x, dumpsL (PyList.cons y tl) with
    | some a, some b => some (a ++ ", " ++ b)
    | _, _ => Option.none
def dumpsD : PyDict → Option String
  | PyDict.nil => some ""
  | PyDict.cons k v PyDict.nil => (dumps v).map (fun s => jstr k ++ ": " ++ s)
  | PyDict.cons k v (PyDict.cons k2 v2 tl) =>
    match dumps v, dumpsD (PyDict.cons k2 v2 tl) with
    | some a, some b => some (jstr k ++ ": " ++ a ++ ", " ++ b)
    | _, _ => Option.none
end

/-- Total rendering of a value the caller knows to be encodable (used only
to phrase statements; defaults to `""`). -/
def dumpsE (v : PyVal) : String :=
  (dumps v).getD ""

/- A value is free of `bytes` (exactly the values `json.dumps` accepts
among those this program builds). -/
mutual
def noBytes : PyVal → Bool
  | PyVal.none => true
  | PyVal.bool _ => true
  | PyVal.int _ => true
  | PyVal.str _ => true
  | PyVal.bytes _ => false
  | PyVal.list xs => noBytesL xs
  | PyVal.dict kvs => noBytesD kvs
def noBytesL : PyList → Bool
  | PyList.nil => true
  | PyList.cons x tl => noBytes x && noBytesL tl
def noBytesD : PyDict → Bool
  | PyDict.nil => true
  | PyDict.cons _ v tl => noBytes v && noBytesD tl
end

/-- Source position attributes of a CPython AST node (`lineno`,
`col_offset`, `end_lineno`, `end_col_offset`; 1-based line, 0-based
column). -/
structure Pos where
  lineno : Int
  col : Int
  endLineno : Int
  endCol : Int

/- The fragment of the CPython abstract grammar exercised by this
development.  Each constructor lists its grammar fields in the order of the
node type's `_fields` declaration, which is the order `ast.iter_fields`
yields them (for `FunctionDef` the trailing `returns`/`type_comment`/
`type_params` fields and the inner structure of `arguments` are omitted:
they cannot contain statements and no claim touches them).  `Module`,
`Store` and `arguments` carry no position attributes; every other node,
`alias` included (Python 3.10+), carries all four. -/
mutual
inductive Ast : Type where
  | Module (body : AstList) (type_ignores : AstList) : Ast
  | Import (pos : Pos) (names : AstList) : Ast
  | ImportFrom (pos : Pos) (module : Option String) (names : AstList) (level : Nat) : Ast
  | alias (pos : Pos) (name : String) (asname : Option String) : Ast
  | Assign (pos : Pos) (targets : AstList) (value : Ast) (type_comment : Option String) : Ast
  | Name (pos : Pos) (id : String) (ctx : Ast) : Ast
  | Store : Ast
  | Constant (pos : Pos) (value : PyVal) (kind : Option String) : Ast
  | FunctionDef (pos : Pos) (name : String) (args : Ast) (body : AstList) (decorator_list : AstList) : Ast
  | arguments : Ast
  | If (pos : Pos) (test : Ast) (body : AstList) (orelse : AstList) : Ast
  | Try (pos : Pos) (body : AstList) (handlers : AstList) (orelse : AstList) (finalbody : AstList) : Ast
  | ExceptHandler (pos : Pos) (name : Option String) (body : AstList) : Ast
inductive AstList : Type where
  | nil : AstList
  | cons (hd : Ast) (tl : AstList) : AstList
end

/-- A Python `str`-or-`None` attribute as a value. -/
def optStr : Option String → PyVal
  | Option.none => PyVal.none
  | some s => PyVal.str s

/-- The four location entries `node_to_dict` adds when the node has them. -/
def posAttrs (p : Pos) (rest : PyDict) : PyDict :=
  PyDict.cons "lineno" (PyVal.int p.lineno)
    (PyDict.cons "col_offset" (PyVal.int p.col)
      (PyDict.cons "end_lineno" (PyVal.int p.endLineno)
        (PyDict.cons "end_col_offset" (PyVal.int p.endCol) rest)))

/- `node_to_dict` (python_ast_helper.py lines 14-37): a dict holding
`_type`, then the location attributes the node has, then every grammar
field in `_fields` order — child lists serialized elementwise, child nodes
recursively, and any other value passed through unchanged (so the raw
constant of a `Constant` node, bytes included, flows into the result). -/
mutual
def nodeToDict : Ast → PyVal
  | Ast.Module body ti =>
    PyVal.dict (PyDict.cons "_type" (PyVal.str "Module")
      (pdOf [("body", PyVal.list (nodeToDictL body)),
             ("type_ignores", PyVal.list (nodeToDictL ti))]))
  | Ast.Import p names =>
    PyVal.dict (PyDict.cons "_type" (PyVal.str "Import")
      (posAttrs p (pdOf [("names", PyVal.list (nodeToDictL names))])))
  | Ast.ImportFrom p m names lvl =>
    PyVal.dict (PyDict.cons "_type" (PyVal.str "ImportFrom")
      (posAttrs p (pdOf [("module", optStr m),
                         ("names", PyVal.list (nodeToDictL names)),
                         ("level", PyVal.int lvl)])))
  | Ast.alias p n a =>
    PyVal.dict (PyDict.cons "_type" (PyVal.str "alias")
      (posAttrs p (pdOf [("name", PyVal.str n), ("asname", optStr a)])))
  | Ast.Assign p targets value tc =>
    PyVal.dict (PyDict.cons "_type" (PyVal.str "Assign")
      (posAttrs p (pdOf [("targets", PyVal.list (nodeToDictL targets)),
                         ("value", nodeToDict value),
                         ("type_comment", optStr tc)])))
  | Ast.Name p id ctx =>
    PyVal.dict (PyDict.cons "_type" (PyVal.str "Name")
      (posAttrs p (pdOf [("id", PyVal.str id), ("ctx", nodeToDict ctx)])))
  | Ast.Store =>
    PyVal.dict (PyDict.cons "_type" (PyVal.str "Store") PyDict.nil)
  | Ast.Constant p v k =>
    PyVal.dict (PyDict.cons "_type" (PyVal.str "Constant")
      (posAttrs p (pdOf [("value", v), ("kind", optStr k)])))
  | Ast.FunctionDef p n args body dec =>
    PyVal.dict (PyDict.cons "_type" (PyVal.str "FunctionDef")
      (posAttrs p (pdOf [("name", PyVal.str n),
                         ("args", nodeToDict args),
                         ("body", PyVal.list (nodeToDictL body)),
                         ("decorator_list", PyVal.list (nodeToDictL dec))])))
  | Ast.arguments =>
    PyVal.dict (PyDict.cons "_type" (PyVal.str "arguments") PyDict.nil)
  | Ast.If p test body orelse =>
    PyVal.dict (PyDict.cons "_type" (PyVal.str "If")
      (posAttrs p (pdOf [("test", nodeToDict test),
                         ("body", PyVal.list (nodeToDictL body)),
                         ("orelse", PyVal.list (nodeToDictL orelse))])))
  | Ast.Try p body handlers orelse finalbody =>
    PyVal.dict (PyDict.cons "_type" (PyVal.str "Try")
      (posAttrs p (pdOf [("body", PyVal.list (nodeToDictL body)),
                         ("handlers", PyVal.list (nodeToDictL handlers)),
                         ("orelse", PyVal.list (nodeToDictL orelse)),
                         ("finalbody", PyVal.list (nodeToDictL finalbody))])))
  | Ast.ExceptHandler p n body =>
    PyVal.dict (PyDict.cons "_type" (PyVal.str "ExceptHandler")
      (posAttrs p (pdOf [("name", optStr n),
                         ("body", PyVal.list (nodeToDictL body))])))
def nodeToDictL : AstList → PyList
  | AstList.nil => PyList.nil
  | AstList.cons hd tl => PyList.cons (nodeToDict hd) (nodeToDictL tl)
end

/-- The grammar production name of a node (`node.__class__.__name__`). -/
def astKind : Ast → String
  | Ast.Module _ _ => "Module"
  | Ast.Import _ _ => "Import"
  | Ast.ImportFrom _ _ _ _ => "ImportFrom"
  | Ast.alias _ _ _ => "alias"
  | Ast.Assign _ _ _ _ => "Assign"
  | Ast.Name _ _ _ => "Name"
  | Ast.Store => "Store"
  | Ast.Constant _ _ _ => "Constant"
  | Ast.FunctionDef _ _ _ _ _ => "FunctionDef"
  | Ast.arguments => "arguments"
  | Ast.If _ _ _ _ => "If"
  | Ast.Try _ _ _ _ _ => "Try"
  | Ast.ExceptHandler _ _ _ => "ExceptHandler"

/-- The keys of a dict, in order. -/
def keysD : PyDict → List String
  | PyDict.nil => []
  | PyDict.cons k _ tl => k :: keysD tl

/-- The keys of a serialized node, in order. -/
def dictKeys (v : PyVal) : List String :=
  keysD (asDict v)

/-- The serialized key layout each production is declared to have: `_type`,
the location attributes when present, then the `_fields` names in grammar
order.  A fixed table, independent of any particular tree. -/
def schemaKeys (kind : String) : List String :=
  if kind = "Module" then ["_type", "body", "type_ignores"]
  else if kind = "Import" then
    ["_type", "lineno", "col_offset", "end_lineno", "end_col_offset", "names"]
  else if kind = "ImportFrom" then
    ["_type", "lineno", "col_offset", "end_lineno", "end_col_offset", "module", "names", "level"]
  else if kind = "alias" then
    ["_type", "lineno", "col_offset", "end_lineno", "end_col_offset", "name", "asname"]
  else if kind = "Assign" then
    ["_type", "lineno", "col_offset", "end_lineno", "end_col_offset", "targets", "value", "type_comment"]
  else if kind = "Name" then
    ["_type", "lineno", "col_offset", "end_lineno", "end_col_offset", "id", "ctx"]
  else if kind = "Store" then ["_type"]
  else if kind = "Constant" then
    ["_type", "lineno", "col_offset", "end_lineno", "end_col_offset", "value", "kind"]
  else if kind = "FunctionDef" then
    ["_type", "lineno", "col_offset", "end_lineno", "end_col_offset", "name", "args", "body", "decorator_list"]
  else if kind = "arguments" then ["_type"]
  else if kind = "If" then
    ["_type", "lineno", "col_offset", "end_lineno", "end_col_offset", "test", "body", "orelse"]
  else if kind = "Try" then
    ["_type", "lineno", "col_offset", "end_lineno", "end_col_offset", "body", "handlers", "orelse", "finalbody"]
  else if kind = "ExceptHandler" then
    ["_type", "lineno", "col_offset", "end_lineno", "end_col_offset", "name", "body"]
  else []

/-- The record `visit_Import` builds for one `alias` (`{"name": a.name,
"asname": a.asname}`); a non-`alias` element would make the source raise,
and is mapped to `None` (parser output never contains one there). -/
def aliasEntry : Ast → PyVal
  | Ast.alias _ n a => PyVal.dict (pdOf [("name", PyVal.str n), ("asname", optStr a)])
  | _ => PyVal.none

/-- The `names` list comprehension of the visitor. -/
def aliasEntries : AstList → PyList
  | AstList.nil => PyList.nil
  | AstList.cons hd tl => PyList.cons (aliasEntry hd) (aliasEntries tl)

/-- The dict `visit_Import` appends (python_ast_helper.py lines 44-51). -/
def mkImportRec (p : Pos) (names : AstList) : PyVal :=
  PyVal.dict (pdOf [("type", PyVal.str "Import"),
                    ("line", PyVal.int p.lineno),
                    ("column", PyVal.int p.col),
                    ("names", PyVal.list (aliasEntries names))])

/-- The dict `visit_ImportFrom` appends (lines 53-62). -/
def mkFromRec (p : Pos) (m : Option String) (lvl : Nat) (names : AstList) : PyVal :=
  PyVal.dict (pdOf [("type", PyVal.str "ImportFrom"),
                    ("module", optStr m),
                    ("level", PyVal.int lvl),
                    ("line", PyVal.int p.lineno),
                    ("column", PyVal.int p.col),
                    ("names", PyVal.list (aliasEntries names))])

/- `extract_imports_from_ast` (lines 40-65): the `ast.NodeVisitor` walk.
`visit` dispatches on the node class: an `Import` or `ImportFrom` node
appends its record and, having a handler that does not call
`generic_visit`, is not descended into; every other node falls back to
`generic_visit`, which visits each AST child in `_fields` order (and each
element of a list field in order) — a left-to-right pre-order walk reaching
statements nested at any depth.  The visitor only appends to its local
`imports` list; the tree itself is read, never written. -/
mutual
def extractImports : Ast → List PyVal
  | Ast.Module body ti => extractImportsL body ++ extractImportsL ti
  | Ast.Import p names => [mkImportRec p names]
  | Ast.ImportFrom p m names lvl => [mkFromRec p m lvl names]
  | Ast.alias _ _ _ => []
  | Ast.Assign _ targets value _ => extractImportsL targets ++ extractImports value
  | Ast.Name _ _ ctx => extractImports ctx
  | Ast.Store => []
  | Ast.Constant _ _ _ => []
  | Ast.FunctionDef _ _ args body dec =>
    extractImports args ++ extractImportsL body ++ extractImportsL dec
  | Ast.arguments => []
  | Ast.If _ test body orelse =>
    extractImports test ++ extractImportsL body ++ extractImportsL orelse
  | Ast.Try _ body handlers orelse finalbody =>
    extractImportsL body ++ extractImportsL handlers ++ extractImportsL orelse
      ++ extractImportsL finalbody
  | Ast.ExceptHandler _ _ body => extractImportsL body
def extractImportsL : AstList → List PyVal
  | AstList.nil => []
  | AstList.cons hd tl => extractImports hd ++ extractImportsL tl
end

/- The source positions `(lineno, col_offset)` of the import statements of
a tree, in the same left-to-right pre-order the visitor walks.  This is the
specification-side order of reference for the order-preservation claim. -/
mutual
def importPositions : Ast → List (Int × Int)
  | Ast.Module body ti => importPositionsL body ++ importPositionsL ti
  | Ast.Import p _ => [(p.lineno, p.col)]
  | Ast.ImportFrom p _ _ _ => [(p.lineno, p.col)]
  | Ast.alias _ _ _ => []
  | Ast.Assign _ targets value _ => importPositionsL targets ++ importPositions value
  | Ast.Name _ _ ctx => importPositions ctx
  | Ast.Store => []
  | Ast.Constant _ _ _ => []
  | Ast.FunctionDef _ _ args body dec =>
    importPositions args ++ importPositionsL body ++ importPositionsL dec
  | Ast.arguments => []
  | Ast.If _ test body orelse =>
    importPositions test ++ importPositionsL body ++ importPositionsL orelse
  | Ast.Try _ body handlers orelse finalbody =>
    importPositionsL body ++ importPositionsL handlers ++ importPositionsL orelse
      ++ importPositionsL finalbody
  | Ast.ExceptHandler _ _ body => importPositionsL body
def importPositionsL : AstList → List (Int × Int)
  | AstList.nil => []
  | AstList.cons hd tl => importPositions hd ++ importPositionsL tl
end

/-- The `(line, column)` entries of an extracted record. -/
def posOfRec (r : PyVal) : Int × Int :=
  (asInt (dget (asDict r) "line"), asInt (dget (asDict r) "column"))

/-- Strict lexicographic order on source positions. -/
def posLt (a b : Int × Int) : Bool :=
  decide (a.1 < b.1 ∨ (a.1 = b.1 ∧ a.2 < b.2))

/-- The positions are strictly increasing. -/
def strictSorted : List (Int × Int) → Bool
  | [] => true
  | [_] => true
  | a :: b :: tl => posLt a b && strictSorted (b :: tl)

/-- A raised `SyntaxError`: message, `lineno`, `offset`. -/
structure SynErr where
  msg : String
  lineno : Int
  offset : Int

/-- The parse of `""`: an empty module. -/
def treeEmpty : Ast := Ast.Module AstList.nil AstList.nil

/-- The parse of the two-line text `"import os\nfrom a.b import c as d"`. -/
def treeTwoImports : Ast :=
  Ast.Module
    (AstList.cons
      (Ast.Import ⟨1, 0, 1, 9⟩
        (AstList.cons (Ast.alias ⟨1, 7, 1, 9⟩ "os" Option.none) AstList.nil))
      (AstList.cons
        (Ast.ImportFrom ⟨2, 0, 2, 22⟩ (some "a.b")
          (AstList.cons (Ast.alias ⟨2, 16, 2, 22⟩ "c" (some "d")) AstList.nil) 0)
        AstList.nil))
    AstList.nil

/-- The parse of `"x = b\"hi\""`: an assignment whose right-hand side is a
`Constant` carrying the bytes object `b"hi"` (ASCII 104, 105). -/
def treeBytesConst : Ast :=
  Ast.Module
    (AstList.cons
      (Ast.Assign ⟨1, 0, 1, 9⟩
        (AstList.cons (Ast.Name ⟨1, 0, 1, 1⟩ "x" Ast.Store) AstList.nil)
        (Ast.Constant ⟨1, 4, 1, 9⟩ (PyVal.bytes [104, 105]) Option.none)
        Option.none)
      AstList.nil)
    AstList.nil

/-- Modelled from the spec: `ast.parse`, the external, injectable parsing
capability of spec section 6 (the grammar itself is out of scope and not in
this repository).  Modelled as the exact CPython parse trees of the source
texts this development exercises; every other text is mapped to a syntax
error, standing for an arbitrary fixed outcome of the host parser. -/
def astParse (src : String) : Except SynErr Ast :=
  if src = "" then Except.ok treeEmpty
  else if src = "import os\nfrom a.b import c as d" then Except.ok treeTwoImports
  else if src = "x = b\"hi\"" then Except.ok treeBytesConst
  else Except.error ⟨"invalid syntax", 1, 1⟩

/-- `parse_content` (lines 68-89).  `ast.parse` on a non-string raises a
`TypeError`, landing in the generic `except Exception` branch; the host's
exception text and traceback are abstracted as fixed strings. -/
def parseContent (content _filePath : PyVal) : PyVal :=
  match content with
  | PyVal.str s =>
    match astParse s with
    | Except.ok tree =>
      PyVal.dict (pdOf [("success", PyVal.bool true), ("ast", nodeToDict tree)])
    | Except.error e =>
      PyVal.dict (pdOf [("success", PyVal.bool false),
                        ("error", PyVal.str "SyntaxError"),
                        ("message", PyVal.str e.msg),
                        ("lineno", PyVal.int e.lineno),
                        ("offset", PyVal.int e.offset)])
  | _ =>
    PyVal.dict (pdOf [("success", PyVal.bool false),
                      ("error", PyVal.str "TypeError"),
                      ("message", PyVal.str "<host exception text>"),
                      ("traceback", PyVal.str "<host traceback>")])

/-- One outcome of `open(path).read()`: the content, or a raised `OSError`
(its class name, message and formatted traceback). -/
inductive FsOut : Type where
  | ok (content : String) : FsOut
  | oserr (name msg tb : String) : FsOut

/-- One outcome of `importlib.import_module`: a module with a `__file__`,
a built-in module without one, `ModuleNotFoundError`, or another raised
exception. -/
inductive ResolveOut : Type where
  | found (path : String) : ResolveOut
  | builtinMod : ResolveOut
  | notFound (msg : String) : ResolveOut
  | raised (name msg tb : String) : ResolveOut

/-- The host world the helper runs against: the filesystem and the import
machinery, both external to the program. -/
structure Env : Type where
  fs : String → FsOut
  resolve : String → ResolveOut

/-- `parse_file` (lines 92-105).  Only `OSError` is caught around the read;
`open` on a non-string, non-integer path raises an uncaught `TypeError`,
modelled as the absence of a result (the integer file-descriptor form of
`open` is outside the model; no request in this development reaches it). -/
def parseFileCmd (env : Env) (filePath : PyVal) : Option PyVal :=
  match filePath with
  | PyVal.str p =>
    match env.fs p with
    | FsOut.ok content =>
      let result := parseContent (PyVal.str content) filePath
      some (if pyFalsy (dget (asDict result) "success") then result
            else pySet result "content" (PyVal.str content))
    | FsOut.oserr name msg _ =>
      some (PyVal.dict (pdOf [("success", PyVal.bool false),
                              ("error", PyVal.str name),
                              ("message", PyVal.str msg)]))
  | _ => Option.none

/-- Parse a text and collect its import records (`extract_imports`, success
path of lines 113-118 and the two except branches). -/
def extractFromText (s : String) : PyVal :=
  match astParse s with
  | Except.ok tree =>
    PyVal.dict (pdOf [("success", PyVal.bool true),
                      ("imports", PyVal.list (plOf (extractImports tree)))])
  | Except.error e =>
    PyVal.dict (pdOf [("success", PyVal.bool false),
                      ("error", PyVal.str "SyntaxError"),
                      ("message", PyVal.str e.msg),
                      ("lineno", PyVal.int e.lineno),
                      ("offset", PyVal.int e.offset)])

/-- A `TypeError` landing in a generic `except Exception` branch that
attaches a traceback (host exception text abstracted). -/
def typeErrorResp : PyVal :=
  PyVal.dict (pdOf [("success", PyVal.bool false),
                    ("error", PyVal.str "TypeError"),
                    ("message", PyVal.str "<host exception text>"),
                    ("traceback", PyVal.str "<host traceback>")])

/-- `extract_imports` (lines 108-133).  Everything, the file read included,
is inside one `try` whose final `except Exception` branch catches any
raised error, so this command never crashes the caller. -/
def extractImportsCmd (env : Env) (filePath content : PyVal) : PyVal :=
  match content with
  | PyVal.none =>
    match filePath with
    | PyVal.str p =>
      match env.fs p with
      | FsOut.ok c => extractFromText c
      | FsOut.oserr name msg tb =>
        PyVal.dict (pdOf [("success", PyVal.bool false),
                          ("error", PyVal.str name),
                          ("message", PyVal.str msg),
                          ("traceback", PyVal.str tb)])
    | _ => typeErrorResp
  | PyVal.str s => extractFromText s
  | _ => typeErrorResp

/-- `resolve_module` (lines 136-151). -/
def resolveCmd (env : Env) (moduleName : PyVal) : PyVal :=
  match moduleName with
  | PyVal.str name =>
    match env.resolve name with
    | ResolveOut.found p =>
      PyVal.dict (pdOf [("success", PyVal.bool true), ("resolved_path", PyVal.str p)])
    | ResolveOut.builtinMod =>
      PyVal.dict (pdOf [("success", PyVal.bool true), ("resolved_path", PyVal.str "builtin")])
    | ResolveOut.notFound msg =>
      PyVal.dict (pdOf [("success", PyVal.bool false),
                        ("error", PyVal.str "ModuleNotFound"),
                        ("message", PyVal.str msg)])
    | ResolveOut.raised name msg tb =>
      PyVal.dict (pdOf [("success", PyVal.bool false),
                        ("error", PyVal.str name),
                        ("message", PyVal.str msg),
                        ("traceback", PyVal.str tb)])
  | _ => typeErrorResp

/-- The fixed `resolve_module`-without-a-module response (line 179). -/
def missingModuleResp : PyVal :=
  PyVal.dict (pdOf [("success", PyVal.bool false),
                    ("error", PyVal.str "MissingModule"),
                    ("message", PyVal.str "module_name required")])

/-- The `shutdown` response body (line 183). -/
def shutdownResp : PyVal :=
  PyVal.dict (pdOf [("success", PyVal.bool true), ("shutdown", PyVal.bool true)])

/-- The response to an unknown command (line 190). -/
def unknownResp (command : PyVal) : PyVal :=
  PyVal.dict (pdOf [("success", PyVal.bool false),
                    ("error", PyVal.str "UnknownCommand"),
                    ("message", command)])

/-- The `if`/`elif` dispatch of `run_server` (lines 165-190): the response
body before the id is attached, with `true` marking the `shutdown` branch
that breaks the loop; `Option.none` is an uncaught exception escaping the
delegated operation. -/
def dispatchResp (env : Env) (kvs : PyDict) : Option (PyVal × Bool) :=
  let command := dget kvs "command"
  let filePath := dgetD kvs "file_path" (PyVal.str "<memory>")
  let content := dget kvs "content"
  let moduleName := dget kvs "module_name"
  if cmdIs command "parse_content" then
    some (parseContent (pyOr content (PyVal.str "")) filePath, false)
  else if cmdIs command "parse_file" then
    (parseFileCmd env filePath).map (fun r => (r, false))
  else if cmdIs command "extract_imports" then
    some (extractImportsCmd env filePath content, false)
  else if cmdIs command "resolve_module" then
    some ((if pyFalsy moduleName then missingModuleResp else resolveCmd env moduleName), false)
  else if cmdIs command "shutdown" then
    some (shutdownResp, true)
  else
    some (unknownResp command, false)

/-- `if request_id is not None: response["id"] = request_id` (lines
184-185 and 192-193; the shutdown branch repeats the attach-and-write
before its `break`, with the same effect). -/
def attachId (requestId response : PyVal) : PyVal :=
  if isNone requestId then response else pySet response "id" requestId

/-- The response dict actually encoded for one decoded message, with the
halt flag. -/
def finalResp (env : Env) (kvs : PyDict) : Option (PyVal × Bool) :=
  (dispatchResp env kvs).map (fun rc => (attachId (dget kvs "id") rc.1, rc.2))

/-- Process one decoded input object: `message.get` on a non-dict raises
(`Option.none`), otherwise dispatch, attach the id, and JSON-encode —
`json.dumps` sits outside every `try`, so its failure is also
`Option.none`, an uncaught exception. -/
def processMsg (env : Env) (j : PyVal) : Option (String × Bool) :=
  match j with
  | PyVal.dict kvs =>
    (finalResp env kvs).bind (fun rc => (dumps rc.1).map (fun s => (s, rc.2)))
  | _ => Option.none

/-- One line of server-mode input, by its `json.loads` outcome: blank
(skipped), undecodable, or a decoded value. -/
inductive Line : Type where
  | blank : Line
  | malformed : Line
  | valid (j : PyVal) : Line

/-- How a server session ends: input exhausted, `shutdown`, or an uncaught
exception aborting the loop. -/
inductive LoopExit : Type where
  | eof : LoopExit
  | shutdown : LoopExit
  | crashed : LoopExit

/-- The `json.loads`-failure response (line 161). -/
def invalidJsonResp : PyVal :=
  PyVal.dict (pdOf [("success", PyVal.bool false), ("error", PyVal.str "InvalidJSON")])

/-- `run_server` (lines 154-196): the output lines written (each flushed as
it is written) and how the session ended. -/
def runServer (env : Env) : List Line → List String × LoopExit
  | [] => ([], LoopExit.eof)
  | Line.blank :: rest => runServer env rest
  | Line.malformed :: rest =>
    match dumps invalidJsonResp with
    | some s =>
      let r := runServer env rest
      (s :: r.1, r.2)
    | Option.none => ([], LoopExit.crashed)
  | Line.valid j :: rest =>
    match processMsg env j with
    | Option.none => ([], LoopExit.crashed)
    | some (s, true) => ([s], LoopExit.shutdown)
    | some (s, false) =>
      let r := runServer env rest
      (s :: r.1, r.2)

/-- The usage-error object of the code-intelligence helper (lines 219-223). -/
def usageResp : PyVal :=
  PyVal.dict (pdOf [("success", PyVal.bool false),
                    ("error", PyVal.str "Usage"),
                    ("message", PyVal.str "python_ast_helper.py --server | <file> | extract_imports <file> | resolve_module <name>")])

/-- `main` of the code-intelligence helper (lines 199-224), as the stdout
lines printed and the process exit status.  `argv` is the full `sys.argv`
(program name first).  No branch calls `sys.exit`: every `return` and the
fall-through usage branch end the process with status 0; only an uncaught
exception (a `json.dumps` failure, or a crash inside `run_server`) makes
the interpreter exit non-zero. -/
def mainCi (env : Env) (argv : List String) (stdin : List Line) : List String × Nat :=
  if argv.contains "--server" then
    let r := runServer env stdin
    (r.1, match r.2 with | LoopExit.crashed => 1 | _ => 0)
  else if argv.length = 2 then
    match (parseFileCmd env (PyVal.str (argv.getD 1 ""))).bind dumps with
    | some s => ([s], 0)
    | Option.none => ([], 1)
  else if argv.length = 3 && argv.getD 1 "" = "extract_imports" then
    match dumps (extractImportsCmd env (PyVal.str (argv.getD 2 "")) PyVal.none) with
    | some s => ([s], 0)
    | Option.none => ([], 1)
  else if argv.length = 3 && argv.getD 1 "" = "resolve_module" then
    match dumps (resolveCmd env (PyVal.str (argv.getD 2 ""))) with
    | some s => ([s], 0)
    | Option.none => ([], 1)
  else
    ([dumpsE usageResp], 0)

/-- `parse_file` of the batch-only variant `apps/server/python_ast_helper.py`
(lines 40-72): reads, parses and serializes in one `try`; unlike the
code-intelligence variant, a failed read lands in the generic
`except Exception` branch (with a traceback) and the success dict carries
`ast` before `content`. -/
def appsParseFile (env : Env) (p : String) : PyVal :=
  match env.fs p with
  | FsOut.ok content =>
    match astParse content with
    | Except.ok tree =>
      PyVal.dict (pdOf [("success", PyVal.bool true),
                        ("ast", nodeToDict tree),
                        ("content", PyVal.str content)])
    | Except.error e =>
      PyVal.dict (pdOf [("success", PyVal.bool false),
                        ("error", PyVal.str "SyntaxError"),
                        ("message", PyVal.str e.msg),
                        ("lineno", PyVal.int e.lineno),
                        ("offset", PyVal.int e.offset)])
  | FsOut.oserr name msg tb =>
    PyVal.dict (pdOf [("success", PyVal.bool false),
                      ("error", PyVal.str name),
                      ("message", PyVal.str msg),
                      ("traceback", PyVal.str tb)])

/-- The usage-error object of the apps/server variant (line 76). -/
def appsUsageResp : PyVal :=
  PyVal.dict (pdOf [("success", PyVal.bool false),
                    ("error", PyVal.str "Usage: python_ast_helper.py <file_path>")])

/-- The `__main__` block of the apps/server variant (lines 74-81): exactly
one file argument or a usage error with `sys.exit(1)`. -/
def appsMain (env : Env) (argv : List String) : List String × Nat :=
  if argv.length ≠ 2 then
    ([dumpsE appsUsageResp], 1)
  else
    match dumps (appsParseFile env (argv.getD 1 "")) with
    | some s => ([s], 0)
    | Option.none => ([], 1)

/-- A concrete host world: every file read fails, every module lookup
misses (used to instantiate closed statements). -/
def env0 : Env :=
  ⟨fun _ => FsOut.oserr "FileNotFoundError" "no such file" "Traceback (most recent call last)",
   fun _ => ResolveOut.notFound "No module named"⟩

/-- Serialize the parse of a text: the server-side composition the
determinism property quantifies over (`Option.none` when the text does not
parse or the tree does not encode). -/
def serializeParse (src : String) : Option String :=
  match astParse src with
  | Except.ok tree => dumps (nodeToDict tree)
  | Except.error _ => Option.none

/- Helper lemmas. -/

mutual
theorem dumps_isSome_of_noBytes : ∀ v : PyVal, noBytes v = true → (dumps v).isSome = true
  | PyVal.none, _ => rfl
  | PyVal.bool true, _ => rfl
  | PyVal.bool false, _ => rfl
  | PyVal.int _, _ => rfl
  | PyVal.str _, _ => rfl
  | PyVal.list xs, h => by
    have hx := dumpsL_isSome_of_noBytes xs (by simpa [noBytes] using h)
    rcases Option.isSome_iff_exists.mp hx with ⟨a, ha⟩
    simp [dumps, ha]
  | PyVal.dict kvs, h => by
    have hx := dumpsD_isSome_of_noBytes kvs (by simpa [noBytes] using h)
    rcases Option.isSome_iff_exists.mp hx with ⟨a, ha⟩
    simp [dumps, ha]
theorem dumpsL_isSome_of_noBytes : ∀ l : PyList, noBytesL l = true → (dumpsL l).isSome = true
  | PyList.nil, _ => rfl
  | PyList.cons x PyList.nil, h =>
    dumps_isSome_of_noBytes x (by simpa [noBytesL] using h)
  | PyList.cons x (PyList.cons y tl), h => by
    have hall := h
    simp only [noBytesL, Bool.and_eq_true] at hall
    have hx := dumps_isSome_of_noBytes x hall.1
    have ht := dumpsL_isSome_of_noBytes (PyList.cons y tl) (by
      simp only [noBytesL, Bool.and_eq_true]
      exact hall.2)
    rcases Option.isSome_iff_exists.mp hx with ⟨a, ha⟩
    rcases Option.isSome_iff_exists.mp ht with ⟨b, hb⟩
    simp [dumpsL, ha, hb]
theorem dumpsD_isSome_of_noBytes : ∀ d : PyDict, noBytesD d = true → (dumpsD d).isSome = true
  | PyDict.nil, _ => rfl
  | PyDict.cons _ v PyDict.nil, h => by
    have hv := dumps_isSome_of_noBytes v (by simpa [noBytesD] using h)
    rcases Option.isSome_iff_exists.mp hv with ⟨a, ha⟩
    simp [dumpsD, ha]
  | PyDict.cons _ v (PyDict.cons k2 v2 tl), h => by
    have hall := h
    simp only [noBytesD, Bool.and_eq_true] at hall
    have hv := dumps_isSome_of_noBytes v hall.1
    have ht := dumpsD_isSome_of_noBytes (PyDict.cons k2 v2 tl) (by
      simp only [noBytesD, Bool.and_eq_true]
      exact hall.2)
    rcases Option.isSome_iff_exists.mp hv with ⟨a, ha⟩
    rcases Option.isSome_iff_exists.mp ht with ⟨b, hb⟩
    simp [dumpsD, ha, hb]
end

mutual
theorem extract_pos_eq : ∀ t : Ast, (extractImports t).map posOfRec = importPositions t
  | Ast.Module body ti => by
    simp [extractImports, importPositions, List.map_append,
      extract_pos_eqL body, extract_pos_eqL ti]
  | Ast.Import p names => rfl
  | Ast.ImportFrom p m names lvl => rfl
  | Ast.alias _ _ _ => rfl
  | Ast.Assign _ targets value _ => by
    simp [extractImports, importPositions, List.map_append,
      extract_pos_eqL targets, extract_pos_eq value]
  | Ast.Name _ _ ctx => by
    simp [extractImports, importPositions, extract_pos_eq ctx]
  | Ast.Store => rfl
  | Ast.Constant _ _ _ => rfl
  | Ast.FunctionDef _ _ args body dec => by
    simp [extractImports, importPositions, List.map_append,
      extract_pos_eq args, extract_pos_eqL body, extract_pos_eqL dec]
  | Ast.arguments => rfl
  | Ast.If _ test body orelse => by
    simp [extractImports, importPositions, List.map_append,
      extract_pos_eq test, extract_pos_eqL body, extract_pos_eqL orelse]
  | Ast.Try _ body handlers orelse finalbody => by
    simp [extractImports, importPositions, List.map_append,
      extract_pos_eqL body, extract_pos_eqL handlers, extract_pos_eqL orelse,
      extract_pos_eqL finalbody]
  | Ast.ExceptHandler _ _ body => by
    simp [extractImports, importPositions, extract_pos_eqL body]
theorem extract_pos_eqL : ∀ l : AstList, (extractImportsL l).map posOfRec = importPositionsL l
  | AstList.nil => rfl
  | AstList.cons hd tl => by
    simp [extractImportsL, importPositionsL, List.map_append,
      extract_pos_eq hd, extract_pos_eqL tl]
end

/-- Every record the visitor emits is one of the two record shapes. -/
def impShaped (r : PyVal) : Prop :=
  (∃ p names, r = mkImportRec p names) ∨ (∃ p m lvl names, r = mkFromRec p m lvl names)

mutual
theorem recShape : ∀ t : Ast, ∀ r ∈ extractImports t, impShaped r
  | Ast.Module body ti => by
    intro r hr
    rcases List.mem_append.mp hr with h | h
    · exact recShapeL body r h
    · exact recShapeL ti r h
  | Ast.Import p names => by
    intro r hr
    rcases List.mem_singleton.mp hr with h
    exact Or.inl ⟨p, names, h⟩
  | Ast.ImportFrom p m names lvl => by
    intro r hr
    rcases List.mem_singleton.mp hr with h
    exact Or.inr ⟨p, m, lvl, names, h⟩
  | Ast.alias _ _ _ => by intro r hr; simp [extractImports] at hr
  | Ast.Assign _ targets value _ => by
    intro r hr
    rcases List.mem_append.mp hr with h | h
    · exact recShapeL targets r h
    · exact recShape value r h
  | Ast.Name _ _ ctx => by
    intro r hr
    exact recShape ctx r hr
  | Ast.Store => by intro r hr; simp [extractImports] at hr
  | Ast.Constant _ _ _ => by intro r hr; simp [extractImports] at hr
  | Ast.FunctionDef _ _ args body dec => by
    intro r hr
    rcases List.mem_append.mp hr with h | h
    · rcases List.mem_append.mp h with h2 | h2
      · exact recShape args r h2
      · exact recShapeL body r h2
    · exact recShapeL dec r h
  | Ast.arguments => by intro r hr; simp [extractImports] at hr
  | Ast.If _ test body orelse => by
    intro r hr
    rcases List.mem_append.mp hr with h | h
    · rcases List.mem_append.mp h with h2 | h2
      · exact recShape test r h2
      · exact recShapeL body r h2
    · exact recShapeL orelse r h
  | Ast.Try _ body handlers orelse finalbody => by
    intro r hr
    rcases List.mem_append.mp hr with h | h
    · rcases List.mem_append.mp h with h2 | h2
      · rcases List.mem_append.mp h2 with h3 | h3
        · exact recShapeL body r h3
        · exact recShapeL handlers r h3
      · exact recShapeL orelse r h2
    · exact recShapeL finalbody r h
  | Ast.ExceptHandler _ _ body => by
    intro r hr
    exact recShapeL body r hr
theorem recShapeL : ∀ l : AstList, ∀ r ∈ extractImportsL l, impShaped r
  | AstList.nil => by intro r hr; simp [extractImportsL] at hr
  | AstList.cons hd tl => by
    intro r hr
    rcases List.mem_append.mp hr with h | h
    · exact recShape hd r h
    · exact recShapeL tl r h
end

/-- A message whose processing succeeds and is not a shutdown. -/
def goodMsg (env : Env) (j : PyVal) : Bool :=
  match processMsg env j with
  | some (_, false) => true
  | _ => false

/-- The two statement shapes of the specification's data model. -/
inductive ImportForm : Type where
  | Direct : ImportForm
  | FromModule : ImportForm
deriving DecidableEq

/-- One imported name with its optional alias (spec data model). -/
structure NameAlias : Type where
  name : String
  asAlias : Option String
deriving DecidableEq

/-- Modelled from the spec: the `ImportRecord` of spec section 3 — `form`,
optional `module`, `level ≥ 0` (0 = absolute; implicit for Direct imports,
which carry no module qualifier), ordered `names`, and the statement's
source position.  This is the specification side of the refinement the
wire records are compared against. -/
structure ImportRecord : Type where
  form : ImportForm
  module : Option String
  level : Nat
  names : List NameAlias
  line : Int
  col : Int
deriving DecidableEq

/-- View a `PyVal` as a list (empty for non-lists). -/
def asList : PyVal → PyList
  | PyVal.list xs => xs
  | _ => PyList.nil

/-- Convert an embedded Python list back to a Lean list. -/
def pyListToList : PyList → List PyVal
  | PyList.nil => []
  | PyList.cons hd tl => hd :: pyListToList tl

/-- Read one wire `{"name", "asname"}` entry as a spec-side name/alias. -/
def absName (v : PyVal) : NameAlias :=
  { name := match dget (asDict v) "name" with
      | PyVal.str s => s
      | _ => ""
  , asAlias := match dget (asDict v) "asname" with
      | PyVal.str s => some s
      | _ => Option.none }

/-- Read one wire import record as a spec-side `ImportRecord`: a record of
type `"ImportFrom"` is the FromModule form with its explicit `module` and
`level` keys; a record of type `"Import"` is the Direct form, whose absent
`module`/`level` keys denote no module qualifier and level 0. -/
def absRecord (r : PyVal) : ImportRecord :=
  { form := if cmdIs (dget (asDict r) "type") "ImportFrom" then ImportForm.FromModule
            else ImportForm.Direct
  , module := match dgetOpt (asDict r) "module" with
      | some (PyVal.str s) => some s
      | _ => Option.none
  , level := (asInt (dget (asDict r) "level")).toNat
  , names := (pyListToList (asList (dget (asDict r) "names"))).map absName
  , line := asInt (dget (asDict r) "line")
  , col := asInt (dget (asDict r) "column") }

/-- The malformed-line request pair used by the no-crash property. -/
def c2GoodReq : PyDict :=
  pdOf [("id", PyVal.int 9),
        ("command", PyVal.str "parse_content"),
        ("content", PyVal.str "")]

/-- The normal response to `c2GoodReq`. -/
def c2GoodResp : PyVal :=
  PyVal.dict (pdOf [("success", PyVal.bool true),
                    ("ast", nodeToDict treeEmpty),
                    ("id", PyVal.int 9)])

/-- The `parse_content` request with no `content` key. -/
def c10ReqAbsent : PyDict :=
  pdOf [("id", PyVal.int 10), ("command", PyVal.str "parse_content")]

/-- The same request with `content` explicitly `null`. -/
def c10ReqNull : PyDict :=
  pdOf [("id", PyVal.int 10), ("command", PyVal.str "parse_content"),
        ("content", PyVal.none)]

/-- The same request with `content` the empty string. -/
def c10ReqEmpty : PyDict :=
  pdOf [("id", PyVal.int 10), ("command", PyVal.str "parse_content"),
        ("content", PyVal.str "")]

/-- The response all three receive. -/
def c10Resp : PyVal :=
  PyVal.dict (pdOf [("success", PyVal.bool true),
                    ("ast", nodeToDict treeEmpty),
                    ("id", PyVal.int 10)])

/-- A module with imports nested inside a function body, both branches of a
conditional, a try block, and an except handler, at increasing positions. -/
def c4Tree : Ast :=
  Ast.Module
    (AstList.cons
      (Ast.FunctionDef ⟨1, 0, 2, 13⟩ "f" Ast.arguments
        (AstList.cons
          (Ast.Import ⟨2, 4, 2, 13⟩
            (AstList.cons (Ast.alias ⟨2, 11, 2, 13⟩ "os" Option.none) AstList.nil))
          AstList.nil)
        AstList.nil)
      (AstList.cons
        (Ast.If ⟨3, 0, 6, 14⟩ (Ast.Constant ⟨3, 3, 3, 7⟩ (PyVal.bool true) Option.none)
          (AstList.cons
            (Ast.ImportFrom ⟨4, 4, 4, 19⟩ (some "a")
              (AstList.cons (Ast.alias ⟨4, 18, 4, 19⟩ "b" Option.none) AstList.nil) 0)
            AstList.nil)
          (AstList.cons
            (Ast.Import ⟨6, 4, 6, 14⟩
              (AstList.cons (Ast.alias ⟨6, 11, 6, 14⟩ "sys" Option.none) AstList.nil))
            AstList.nil))
        (AstList.cons
          (Ast.Try ⟨7, 0, 10, 15⟩
            (AstList.cons
              (Ast.Import ⟨8, 4, 8, 15⟩
                (AstList.cons (Ast.alias ⟨8, 11, 8, 15⟩ "json" Option.none) AstList.nil))
              AstList.nil)
            (AstList.cons
              (Ast.ExceptHandler ⟨9, 0, 10, 15⟩ Option.none
                (AstList.cons
                  (Ast.Import ⟨10, 4, 10, 15⟩
                    (AstList.cons (Ast.alias ⟨10, 11, 10, 15⟩ "math" Option.none) AstList.nil))
                  AstList.nil))
              AstList.nil)
            AstList.nil AstList.nil)
          AstList.nil)))
    AstList.nil

/-- The `extract_imports` request of spec example 3. -/
def c5Req : PyDict :=
  pdOf [("id", PyVal.int 3), ("command", PyVal.str "extract_imports"),
        ("content", PyVal.str "import os\nfrom a.b import c as d")]

/-- Its response. -/
def c5Resp : PyVal :=
  PyVal.dict (pdOf [("success", PyVal.bool true),
                    ("imports", PyVal.list (plOf (extractImports treeTwoImports))),
                    ("id", PyVal.int 3)])

/-- The first record of the example (used to witness C5's hypotheses). -/
def c5Rec1 : PyVal :=
  mkImportRec ⟨1, 0, 1, 9⟩
    (AstList.cons (Ast.alias ⟨1, 7, 1, 9⟩ "os" Option.none) AstList.nil)

/-- A `parse_content` request carrying `"id": null`. -/
def c7NullIdReq : PyDict :=
  pdOf [("id", PyVal.none), ("command", PyVal.str "parse_content"),
        ("content", PyVal.str "")]

/-- The same request with no `id` field at all. -/
def c7NoIdReq : PyDict :=
  pdOf [("command", PyVal.str "parse_content"), ("content", PyVal.str "")]

/-- A `resolve_module` request with an id and no `module_name`. -/
def c7AKvs : PyDict :=
  pdOf [("id", PyVal.int 5), ("command", PyVal.str "resolve_module")]

/-- Two ordinary requests (the second with an unknown command). -/
def c7BMsgs : List PyVal :=
  [PyVal.dict c7AKvs,
   PyVal.dict (pdOf [("id", PyVal.int 6), ("command", PyVal.str "no_such_op")])]

/-- An invocation shape none of the code-intelligence helper's four command
forms accepts. -/
def malformedArgv (argv : List String) : Prop :=
  argv.contains "--server" = false ∧ argv.length ≠ 2 ∧
    ¬(argv.length = 3 ∧ argv.getD 1 "" = "extract_imports") ∧
    ¬(argv.length = 3 ∧ argv.getD 1 "" = "resolve_module")

/- Theorems. -/

theorem dgetOpt_dset : ∀ (d : PyDict) (key : String) (v : PyVal),
    dgetOpt (dset d key v) key = some v
  | PyDict.nil, key, v => by simp [dset, dgetOpt]
  | PyDict.cons k w tl, key, v => by
    by_cases hk : k = key
    · simp [dset, hk, dgetOpt]
    · simp [dset, hk, dgetOpt, dgetOpt_dset tl key v]

theorem dget_dset : ∀ (d : PyDict) (key : String) (v : PyVal),
    dget (dset d key v) key = v
  | PyDict.nil, key, v => by simp [dset, dget]
  | PyDict.cons k w tl, key, v => by
    by_cases hk : k = key
    · simp [dset, hk, dget]
    · simp [dset, hk, dget, dget_dset tl key v]

/-- Attaching a non-`None` id to a dict response stores exactly that id. -/
theorem attachId_get (d : PyDict) (rid : PyVal) (h : isNone rid = false) :
    dget (asDict (attachId rid (PyVal.dict d))) "id" = rid ∧
      hasKey (attachId rid (PyVal.dict d)) "id" = true := by
  constructor
  · simp [attachId, h, pySet, asDict, dget_dset]
  · simp [attachId, h, pySet, asDict, hasKey, dgetOpt_dset]

theorem dget_eq_dgetOpt : ∀ (d : PyDict) (key : String),
    dget d key = (dgetOpt d key).getD PyVal.none
  | PyDict.nil, _ => rfl
  | PyDict.cons k v tl, key => by
    by_cases hk : k = key
    · simp [dget, dgetOpt, hk]
    · simp [dget, dgetOpt, hk, dget_eq_dgetOpt tl key]

theorem parseContent_isDict (c fp : PyVal) : ∃ d, parseContent c fp = PyVal.dict d := by
  cases c with
  | str s =>
    rcases h : astParse s with e | t
    · simp only [parseContent, h]
      exact ⟨_, rfl⟩
    · simp only [parseContent, h]
      exact ⟨_, rfl⟩
  | none => exact ⟨_, rfl⟩
  | bool b => exact ⟨_, rfl⟩
  | int n => exact ⟨_, rfl⟩
  | bytes bs => exact ⟨_, rfl⟩
  | list xs => exact ⟨_, rfl⟩
  | dict kvs => exact ⟨_, rfl⟩

theorem extractFromText_isDict (s : String) : ∃ d, extractFromText s = PyVal.dict d := by
  rcases h : astParse s with e | t
  · simp only [extractFromText, h]
    exact ⟨_, rfl⟩
  · simp only [extractFromText, h]
    exact ⟨_, rfl⟩

theorem extractImportsCmd_isDict (env : Env) (fp c : PyVal) :
    ∃ d, extractImportsCmd env fp c = PyVal.dict d := by
  cases c with
  | none =>
    cases fp with
    | str p =>
      rcases h : env.fs p with content | ⟨name, msg, tb⟩
      · rcases extractFromText_isDict content with ⟨d, hd⟩
        exact ⟨d, by simp only [extractImportsCmd, h, hd]⟩
      · simp only [extractImportsCmd, h]
        exact ⟨_, rfl⟩
    | none => exact ⟨_, rfl⟩
    | bool b => exact ⟨_, rfl⟩
    | int n => exact ⟨_, rfl⟩
    | bytes bs => exact ⟨_, rfl⟩
    | list xs => exact ⟨_, rfl⟩
    | dict kvs => exact ⟨_, rfl⟩
  | str s => exact extractFromText_isDict s
  | bool b => exact ⟨_, rfl⟩
  | int n => exact ⟨_, rfl⟩
  | bytes bs => exact ⟨_, rfl⟩
  | list xs => exact ⟨_, rfl⟩
  | dict kvs => exact ⟨_, rfl⟩

theorem resolveCmd_isDict (env : Env) (m : PyVal) : ∃ d, resolveCmd env m = PyVal.dict d := by
  cases m with
  | str s =>
    rcases h : env.resolve s with p | _ | msg | ⟨name, msg, tb⟩
    · simp only [resolveCmd, h]
      exact ⟨_, rfl⟩
    · simp only [resolveCmd, h]
      exact ⟨_, rfl⟩
    · simp only [resolveCmd, h]
      exact ⟨_, rfl⟩
    · simp only [resolveCmd, h]
      exact ⟨_, rfl⟩
  | none => exact ⟨_, rfl⟩
  | bool b => exact ⟨_, rfl⟩
  | int n => exact ⟨_, rfl⟩
  | bytes bs => exact ⟨_, rfl⟩
  | list xs => exact ⟨_, rfl⟩
  | dict kvs => exact ⟨_, rfl⟩

theorem parseFileCmd_isDict (env : Env) (fp r : PyVal) (h : parseFileCmd env fp = some r) :
    ∃ d, r = PyVal.dict d := by
  cases fp with
  | str p =>
    rcases hf : env.fs p with content | ⟨name, msg, tb⟩
    · rcases parseContent_isDict (PyVal.str content) (PyVal.str p) with ⟨d, hd⟩
      simp only [parseFileCmd, hf, hd, pySet] at h
      by_cases hs : pyFalsy (dget (asDict (PyVal.dict d)) "success") = true
      · rw [if_pos hs] at h
        exact ⟨d, (Option.some.inj h).symm⟩
      · rw [if_neg hs] at h
        exact ⟨_, (Option.some.inj h).symm⟩
    · simp only [parseFileCmd, hf] at h
      exact ⟨_, (Option.some.inj h).symm⟩
  | none => simp [parseFileCmd] at h
  | bool b => simp [parseFileCmd] at h
  | int n => simp [parseFileCmd] at h
  | bytes bs => simp [parseFileCmd] at h
  | list xs => simp [parseFileCmd] at h
  | dict kvs => simp [parseFileCmd] at h

theorem dispatchResp_isDict (env : Env) (kvs : PyDict) (r : PyVal) (halt : Bool)
    (h : dispatchResp env kvs = some (r, halt)) : ∃ d, r = PyVal.dict d := by
  simp only [dispatchResp] at h
  split at h
  · rcases parseContent_isDict (pyOr (dget kvs "content") (PyVal.str ""))
      (dgetD kvs "file_path" (PyVal.str "<memory>")) with ⟨d, hd⟩
    rw [hd] at h
    have h2 := congrArg Prod.fst (Option.some.inj h)
    exact ⟨d, h2.symm⟩
  · split at h
    · rcases hpf : parseFileCmd env (dgetD kvs "file_path" (PyVal.str "<memory>")) with _ | v
      · rw [hpf] at h
        simp at h
      · rw [hpf] at h
        rcases parseFileCmd_isDict env _ v hpf with ⟨d, hd⟩
        simp only [Option.map] at h
        have h2 : v = r := congrArg Prod.fst (Option.some.inj h)
        exact ⟨d, h2 ▸ hd⟩
    · split at h
      · rcases extractImportsCmd_isDict env (dgetD kvs "file_path" (PyVal.str "<memory>"))
          (dget kvs "content") with ⟨d, hd⟩
        rw [hd] at h
        have h2 := congrArg Prod.fst (Option.some.inj h)
        exact ⟨d, h2.symm⟩
      · split at h
        · by_cases hm : pyFalsy (dget kvs "module_name") = true
          · rw [if_pos hm] at h
            have h2 := congrArg Prod.fst (Option.some.inj h)
            exact ⟨_, h2.symm⟩
          · rw [if_neg hm] at h
            rcases resolveCmd_isDict env (dget kvs "module_name") with ⟨d, hd⟩
            rw [hd] at h
            have h2 := congrArg Prod.fst (Option.some.inj h)
            exact ⟨d, h2.symm⟩
        · split at h
          · have h2 := congrArg Prod.fst (Option.some.inj h)
            exact ⟨_, h2.symm⟩
          · have h2 := congrArg Prod.fst (Option.some.inj h)
            exact ⟨_, h2.symm⟩

/-- Strictly sequential processing: when every message in a batch is
processed without halting or crashing, the server emits exactly one output
line per message, in order. -/
theorem runServer_fifo (env : Env) :
    ∀ msgs : List PyVal, msgs.all (goodMsg env) = true →
      runServer env (msgs.map Line.valid) =
        (msgs.filterMap (fun m => (processMsg env m).map Prod.fst), LoopExit.eof) := by
  intro msgs hall
  induction msgs with
  | nil => rfl
  | cons m tl ih =>
    rw [List.all_cons, Bool.and_eq_true] at hall
    have hm := hall.1
    unfold goodMsg at hm
    rcases hp : processMsg env m with _ | ⟨s, halt⟩
    · rw [hp] at hm
      simp at hm
    · rw [hp] at hm
      cases halt with
      | true => simp at hm
      | false =>
        have hrec := ih hall.2
        simp only [List.map_cons, runServer, hp, hrec, List.filterMap_cons, Option.map_some]
        rfl

/-- The serialized key layout of a node depends only on its production. -/
theorem nodeToDict_keys : ∀ t : Ast, dictKeys (nodeToDict t) = schemaKeys (astKind t)
  | Ast.Module _ _ => rfl
  | Ast.Import _ _ => rfl
  | Ast.ImportFrom _ _ _ _ => rfl
  | Ast.alias _ _ _ => rfl
  | Ast.Assign _ _ _ _ => rfl
  | Ast.Name _ _ _ => rfl
  | Ast.Store => rfl
  | Ast.Constant _ _ _ => rfl
  | Ast.FunctionDef _ _ _ _ _ => rfl
  | Ast.arguments => rfl
  | Ast.If _ _ _ _ => rfl
  | Ast.Try _ _ _ _ _ => rfl
  | Ast.ExceptHandler _ _ _ => rfl

/- Claim theorems. -/

/-- C1: the claim says every failure of a delegated operation — response
encoding included, and in particular on source whose AST holds a bytes
constant — surfaces as a structured error in that request's response and
never aborts the session loop.  The code contradicts this: for the request
`parse_content` of `x = b"hi"` the parse succeeds, the serializer passes
the bytes object through unchanged, `json.dumps` (which sits outside every
`try`) fails, and the loop aborts with no response written for the
request. -/
theorem c1_bytes_constant_crashes_loop :
    dget (asDict (parseContent (PyVal.str "x = b\"hi\"") (PyVal.str "<memory>"))) "success"
        = PyVal.bool true ∧
    dumps (nodeToDict treeBytesConst) = Option.none ∧
    (∀ env : Env,
      runServer env
        [Line.valid (PyVal.dict (pdOf
          [("id", PyVal.int 1),
           ("command", PyVal.str "parse_content"),
           ("content", PyVal.str "x = b\"hi\"")]))]
        = ([], LoopExit.crashed)) :=
  ⟨rfl, rfl, fun _ => rfl⟩

/-- C2: a non-JSON input line yields the structured `InvalidJSON` error
response (the `InvalidInput` class of the error taxonomy), which carries no
id; the loop keeps running on the remaining input, so a malformed line
followed by a well-formed request yields exactly two response lines — the
error, then the normal response. -/
theorem c2_malformed_then_wellformed :
    (∀ (env : Env) (rest : List Line),
      runServer env (Line.malformed :: rest)
        = (dumpsE invalidJsonResp :: (runServer env rest).1, (runServer env rest).2)) ∧
    hasKey invalidJsonResp "id" = false ∧
    (∀ env : Env,
      runServer env [Line.malformed, Line.valid (PyVal.dict c2GoodReq)]
        = ([dumpsE invalidJsonResp, dumpsE c2GoodResp], LoopExit.eof)) :=
  ⟨fun _ _ => rfl, rfl, fun _ => rfl⟩

/-- C3: serialization is deterministic — serializing the parse of a fixed
text twice yields identical output, and the serialized key layout (field
names and their order) of every node is the fixed per-production schema
table, a pure function of the tree with no dependence on any unordered
host structure or global state (the whole pipeline is a function). -/
theorem c3_serialization_deterministic :
    (∀ src : String, serializeParse src = serializeParse src) ∧
    (∀ t : Ast, dictKeys (nodeToDict t) = schemaKeys (astKind t)) :=
  ⟨fun _ => rfl, nodeToDict_keys⟩

/-- C10: `parse_content` with `content` absent or `null` is not a
missing-parameter error: `content or ""` turns both into the empty string,
which parses to an empty module, so the response is the same success
response (an empty `Module` ast) the empty-string request receives. -/
theorem c10_absent_content_parses_empty : ∀ env : Env,
    finalResp env c10ReqAbsent = some (c10Resp, false) ∧
    finalResp env c10ReqNull = some (c10Resp, false) ∧
    finalResp env c10ReqEmpty = some (c10Resp, false) ∧
    dget (asDict c10Resp) "success" = PyVal.bool true ∧
    dget (asDict c10Resp) "ast" = nodeToDict treeEmpty ∧
    nodeToDict treeEmpty
      = PyVal.dict (pdOf [("_type", PyVal.str "Module"),
                          ("body", PyVal.list PyList.nil),
                          ("type_ignores", PyVal.list PyList.nil)]) ∧
    runServer env [Line.valid (PyVal.dict c10ReqAbsent)]
      = ([dumpsE c10Resp], LoopExit.eof) :=
  fun _ => ⟨rfl, rfl, rfl, rfl, rfl, rfl, rfl⟩

/-- C4: the extractor is a single left-to-right pre-order walk of the whole
tree (`importPositions` recurses into function bodies, conditional branches
and try/except blocks by definition); non-import nodes are traversed but
contribute no record, so the record list projects exactly onto the
tree's import positions, and for a tree whose imports occur at strictly
increasing source positions the records come back in exactly that order.
The walk is a pure function of the tree — nothing is mutated. -/
theorem c4_import_order_preserved (t : Ast)
    (h : strictSorted (importPositions t) = true) :
    (extractImports t).map posOfRec = importPositions t ∧
    strictSorted ((extractImports t).map posOfRec) = true ∧
    (extractImports t).length = (importPositions t).length := by
  refine ⟨extract_pos_eq t, ?_, ?_⟩
  · rw [extract_pos_eq t]
    exact h
  · have h2 := congrArg List.length (extract_pos_eq t)
    simpa using h2

/-- Witness for C4 at the nested tree. -/
theorem c4_import_order_preserved_witness :
    strictSorted (importPositions c4Tree) = true ∧
    ((extractImports c4Tree).map posOfRec = importPositions c4Tree ∧
     strictSorted ((extractImports c4Tree).map posOfRec) = true ∧
     (extractImports c4Tree).length = (importPositions c4Tree).length) :=
  ⟨rfl, c4_import_order_preserved c4Tree rfl⟩

/-- C5: the example request succeeds with exactly two records — the
Direct import of `os` (no module, level 0, one unaliased name) followed
by the FromModule import of `a.b` at level 0 with `c` aliased to `d` — and
in general every record the visitor emits for a plain import statement is
the Direct form: on the wire it carries no `module` and no `level` key, and
under the specification's data model it reads as `module` absent and
`level = 0`. -/
theorem c5_extract_example_and_direct_shape :
    (∀ env : Env, finalResp env c5Req = some (c5Resp, false)) ∧
    (extractImports treeTwoImports).length = 2 ∧
    (extractImports treeTwoImports).map absRecord
      = [{ form := ImportForm.Direct, module := Option.none, level := 0,
           names := [{ name := "os", asAlias := Option.none }], line := 1, col := 0 },
         { form := ImportForm.FromModule, module := some "a.b", level := 0,
           names := [{ name := "c", asAlias := some "d" }], line := 2, col := 0 }] ∧
    (∀ t : Ast, ∀ r ∈ extractImports t,
      cmdIs (dget (asDict r) "type") "Import" = true →
        hasKey r "module" = false ∧ hasKey r "level" = false ∧
        (absRecord r).form = ImportForm.Direct ∧
        (absRecord r).module = Option.none ∧
        (absRecord r).level = 0) := by
  refine ⟨fun _ => rfl, rfl, rfl, ?_⟩
  intro t r hr htype
  rcases recShape t r hr with ⟨p, names, rfl⟩ | ⟨p, m, lvl, names, rfl⟩
  · exact ⟨rfl, rfl, rfl, rfl, rfl⟩
  · exfalso
    simp [mkFromRec, asDict, dget, cmdIs, pdOf] at htype

/-- Witness for C5's general Direct-shape conjunct at the example's first
record. -/
theorem c5_extract_example_and_direct_shape_witness :
    hasKey c5Rec1 "module" = false ∧ hasKey c5Rec1 "level" = false ∧
    (absRecord c5Rec1).form = ImportForm.Direct ∧
    (absRecord c5Rec1).module = Option.none ∧
    (absRecord c5Rec1).level = 0 :=
  c5_extract_example_and_direct_shape.2.2.2 treeTwoImports c5Rec1
    (List.Mem.head _) rfl

/-- C6: a `shutdown` request always succeeds: the response body is
`{"success": true, "shutdown": true}` (with the request id attached when it
is present and non-`None`), that single line is written (and flushed, each
written line being flushed) and the session ends in the `shutdown` state —
the output is the same whatever input follows, so no later line is ever
read, dispatched or answered. -/
theorem c6_shutdown_terminates (env : Env) (kvs : PyDict) (rest : List Line)
    (hcmd : dget kvs "command" = PyVal.str "shutdown")
    (hid : noBytes (dget kvs "id") = true) :
    ∃ s, processMsg env (PyVal.dict kvs) = some (s, true) ∧
      dumps (attachId (dget kvs "id") shutdownResp) = some s ∧
      runServer env (Line.valid (PyVal.dict kvs) :: rest) = ([s], LoopExit.shutdown) ∧
      (isNone (dget kvs "id") = false →
        dget (asDict (attachId (dget kvs "id") shutdownResp)) "id" = dget kvs "id" ∧
        hasKey (attachId (dget kvs "id") shutdownResp) "id" = true) := by
  have hd : dispatchResp env kvs = some (shutdownResp, true) := by
    unfold dispatchResp
    rw [hcmd]
    rfl
  have hnb : noBytes (attachId (dget kvs "id") shutdownResp) = true := by
    unfold attachId
    by_cases hn : isNone (dget kvs "id") = true
    · rw [if_pos hn]
      rfl
    · rw [if_neg hn]
      simp [pySet, shutdownResp, pdOf, dset, noBytes, noBytesD, hid]
  rcases Option.isSome_iff_exists.mp (dumps_isSome_of_noBytes _ hnb) with ⟨s, hsome⟩
  have hf : finalResp env kvs = some (attachId (dget kvs "id") shutdownResp, true) := by
    unfold finalResp
    rw [hd]
    rfl
  have hproc : processMsg env (PyVal.dict kvs) = some (s, true) := by
    simp only [processMsg]
    rw [hf]
    simp [hsome]
  refine ⟨s, hproc, hsome, ?_, ?_⟩
  · simp [runServer, hproc]
  · intro hne
    exact attachId_get _ _ hne

/-- Witness for C6: a shutdown request with id 7, followed by an input line
that is never answered. -/
theorem c6_shutdown_terminates_witness :
    ∃ s, processMsg env0 (PyVal.dict (pdOf [("id", PyVal.int 7), ("command", PyVal.str "shutdown")]))
        = some (s, true) ∧
      dumps (attachId (dget (pdOf [("id", PyVal.int 7), ("command", PyVal.str "shutdown")]) "id") shutdownResp)
        = some s ∧
      runServer env0
        (Line.valid (PyVal.dict (pdOf [("id", PyVal.int 7), ("command", PyVal.str "shutdown")]))
          :: [Line.malformed])
        = ([s], LoopExit.shutdown) ∧
      (isNone (dget (pdOf [("id", PyVal.int 7), ("command", PyVal.str "shutdown")]) "id") = false →
        dget (asDict (attachId (dget (pdOf [("id", PyVal.int 7), ("command", PyVal.str "shutdown")]) "id") shutdownResp)) "id"
          = dget (pdOf [("id", PyVal.int 7), ("command", PyVal.str "shutdown")]) "id" ∧
        hasKey (attachId (dget (pdOf [("id", PyVal.int 7), ("command", PyVal.str "shutdown")]) "id") shutdownResp) "id" = true) :=
  c6_shutdown_terminates env0 (pdOf [("id", PyVal.int 7), ("command", PyVal.str "shutdown")])
    [Line.malformed] rfl rfl

/-- C7 counterexample: the claim includes `null` among the id values echoed
verbatim, but for a request whose id is JSON `null` the response carries no
`id` key at all — `message.get("id")` returns `None` for it, exactly as for
an absent id, and `if request_id is not None` skips the echo; the two
requests get identical responses. -/
theorem c7_null_id_not_echoed :
    hasKey ((finalResp env0 c7NullIdReq).getD (PyVal.none, false)).1 "id" = false ∧
    finalResp env0 c7NullIdReq = finalResp env0 c7NoIdReq :=
  ⟨rfl, rfl⟩

/-- C7 as amended: for every well-formed request whose `id` is present and
non-`null`, the single response carries that id value unchanged (a `null`
id is indistinguishable from an absent one and is not echoed); and requests
are processed strictly in order — a batch of messages that all process
without halting produces exactly one response per message, in order, so the
i-th response answers the i-th successfully decoded request. -/
theorem c7_id_echo_and_fifo :
    (∀ (env : Env) (kvs : PyDict) (r : PyVal) (halt : Bool),
      dispatchResp env kvs = some (r, halt) →
      isNone (dget kvs "id") = false →
      dget (asDict (attachId (dget kvs "id") r)) "id" = dget kvs "id" ∧
      hasKey (attachId (dget kvs "id") r) "id" = true ∧
      finalResp env kvs = some (attachId (dget kvs "id") r, halt)) ∧
    (∀ (env : Env) (msgs : List PyVal), msgs.all (goodMsg env) = true →
      runServer env (msgs.map Line.valid)
        = (msgs.filterMap (fun m => (processMsg env m).map Prod.fst), LoopExit.eof)) := by
  constructor
  · intro env kvs r halt hd hne
    rcases dispatchResp_isDict env kvs r halt hd with ⟨d, rfl⟩
    refine ⟨(attachId_get d _ hne).1, (attachId_get d _ hne).2, ?_⟩
    unfold finalResp
    rw [hd]
    rfl
  · exact fun env => runServer_fifo env

/-- Witness for C7's amended statement: the id 5 is echoed, and the
two-request batch yields its two responses in order. -/
theorem c7_id_echo_and_fifo_witness :
    (dget (asDict (attachId (dget c7AKvs "id") missingModuleResp)) "id" = dget c7AKvs "id" ∧
     hasKey (attachId (dget c7AKvs "id") missingModuleResp) "id" = true ∧
     finalResp env0 c7AKvs = some (attachId (dget c7AKvs "id") missingModuleResp, false)) ∧
    runServer env0 (c7BMsgs.map Line.valid)
      = (c7BMsgs.filterMap (fun m => (processMsg env0 m).map Prod.fst), LoopExit.eof) :=
  ⟨c7_id_echo_and_fifo.1 env0 c7AKvs missingModuleResp false rfl rfl,
   c7_id_echo_and_fifo.2 env0 c7BMsgs rfl⟩

/-- C8: a `resolve_module` request with no `module_name` field answers with
the structured missing-parameter error — success false, the classification
`"MissingModule"`, and the message `"module_name required"` — rather than
crashing, and the session loop goes on to answer the rest of the input. -/
theorem c8_missing_module_name (env : Env) (kvs : PyDict) (rest : List Line)
    (hcmd : dget kvs "command" = PyVal.str "resolve_module")
    (hmod : dgetOpt kvs "module_name" = Option.none)
    (hid : noBytes (dget kvs "id") = true) :
    dispatchResp env kvs = some (missingModuleResp, false) ∧
    dget (asDict missingModuleResp) "success" = PyVal.bool false ∧
    dget (asDict missingModuleResp) "error" = PyVal.str "MissingModule" ∧
    dget (asDict missingModuleResp) "message" = PyVal.str "module_name required" ∧
    ∃ s, processMsg env (PyVal.dict kvs) = some (s, false) ∧
      runServer env (Line.valid (PyVal.dict kvs) :: rest)
        = (s :: (runServer env rest).1, (runServer env rest).2) := by
  have hmod2 : dget kvs "module_name" = PyVal.none := by
    rw [dget_eq_dgetOpt, hmod]
    rfl
  have hd : dispatchResp env kvs = some (missingModuleResp, false) := by
    unfold dispatchResp
    rw [hcmd, hmod2]
    rfl
  have hnb : noBytes (attachId (dget kvs "id") missingModuleResp) = true := by
    unfold attachId
    by_cases hn : isNone (dget kvs "id") = true
    · rw [if_pos hn]
      rfl
    · rw [if_neg hn]
      simp [pySet, missingModuleResp, pdOf, dset, noBytes, noBytesD, hid]
  rcases Option.isSome_iff_exists.mp (dumps_isSome_of_noBytes _ hnb) with ⟨s, hsome⟩
  have hf : finalResp env kvs = some (attachId (dget kvs "id") missingModuleResp, false) := by
    unfold finalResp
    rw [hd]
    rfl
  have hproc : processMsg env (PyVal.dict kvs) = some (s, false) := by
    simp only [processMsg]
    rw [hf]
    simp [hsome]
  refine ⟨hd, rfl, rfl, rfl, s, hproc, ?_⟩
  simp [runServer, hproc]

/-- Witness for C8: a module-less `resolve_module` request with id 4,
followed by one more line the loop still answers. -/
theorem c8_missing_module_name_witness :
    dispatchResp env0 (pdOf [("id", PyVal.int 4), ("command", PyVal.str "resolve_module")])
        = some (missingModuleResp, false) ∧
    dget (asDict missingModuleResp) "success" = PyVal.bool false ∧
    dget (asDict missingModuleResp) "error" = PyVal.str "MissingModule" ∧
    dget (asDict missingModuleResp) "message" = PyVal.str "module_name required" ∧
    ∃ s, processMsg env0 (PyVal.dict (pdOf [("id", PyVal.int 4), ("command", PyVal.str "resolve_module")]))
        = some (s, false) ∧
      runServer env0
        (Line.valid (PyVal.dict (pdOf [("id", PyVal.int 4), ("command", PyVal.str "resolve_module")]))
          :: [Line.malformed])
        = (s :: (runServer env0 [Line.malformed]).1, (runServer env0 [Line.malformed]).2) :=
  c8_missing_module_name env0 (pdOf [("id", PyVal.int 4), ("command", PyVal.str "resolve_module")])
    [Line.malformed] rfl rfl rfl

/-- C9 counterexample: the claim says a malformed invocation exits with a
non-zero status, but the code-intelligence helper's `main` prints the usage
object and falls through without calling `sys.exit`, so the process exits
with status 0. -/
theorem c9_usage_error_exits_zero :
    mainCi env0 ["python_ast_helper.py", "a", "b", "c"] [] = ([dumpsE usageResp], 0) :=
  rfl

/-- C9 as amended: a malformed invocation prints the structured usage error
as one JSON object, but the code-intelligence helper still exits with
status 0 (it never calls `sys.exit`), while the apps/server variant exits 1
on a wrong argument count; every well-formed batch invocation whose printed
response is JSON-encodable exits with status 0, a reported parse or read
failure included. -/
theorem c9_batch_exit_codes :
    (∀ (env : Env) (argv : List String) (stdin : List Line),
      malformedArgv argv → mainCi env argv stdin = ([dumpsE usageResp], 0)) ∧
    (∀ (env : Env) (argv : List String),
      argv.length ≠ 2 → appsMain env argv = ([dumpsE appsUsageResp], 1)) ∧
    (∀ (env : Env) (p : String), p ≠ "--server" →
      ((parseFileCmd env (PyVal.str p)).bind dumps).isSome = true →
      (mainCi env ["python_ast_helper.py", p] []).2 = 0) ∧
    (∀ (env : Env) (p : String), p ≠ "--server" →
      (dumps (extractImportsCmd env (PyVal.str p) PyVal.none)).isSome = true →
      (mainCi env ["python_ast_helper.py", "extract_imports", p] []).2 = 0) ∧
    (∀ (env : Env) (m : String), m ≠ "--server" →
      (dumps (resolveCmd env (PyVal.str m))).isSome = true →
      (mainCi env ["python_ast_helper.py", "resolve_module", m] []).2 = 0) := by
  refine ⟨?_, ?_, ?_, ?_, ?_⟩
  · intro env argv stdin h
    obtain ⟨h1, h2, h3, h4⟩ := h
    simp only [mainCi, h1, Bool.false_eq_true, if_false]
    rw [if_neg h2]
    rw [if_neg (by
      intro hc
      rw [Bool.and_eq_true, decide_eq_true_eq, decide_eq_true_eq] at hc
      exact h3 hc)]
    rw [if_neg (by
      intro hc
      rw [Bool.and_eq_true, decide_eq_true_eq, decide_eq_true_eq] at hc
      exact h4 hc)]
  · intro env argv h
    simp only [appsMain, if_pos h]
  · intro env p hp hs
    have hc : (["python_ast_helper.py", p].contains "--server") = false := by
      have hp2 : ("--server" == p) = false := by
        rw [beq_eq_false_iff_ne]
        exact fun e => hp e.symm
      simp [List.contains, List.elem, hp2]
    rcases Option.isSome_iff_exists.mp hs with ⟨s, hsome⟩
    simp [mainCi, hc, hsome]
    rw [if_neg (fun e => hp e.symm)]
  · intro env p hp hs
    have hc : (["python_ast_helper.py", "extract_imports", p].contains "--server") = false := by
      have hp2 : ("--server" == p) = false := by
        rw [beq_eq_false_iff_ne]
        exact fun e => hp e.symm
      simp [List.contains, List.elem, hp2]
    rcases Option.isSome_iff_exists.mp hs with ⟨s, hsome⟩
    simp [mainCi, hc, hsome]
    rw [if_neg (fun e => hp e.symm)]
  · intro env m hm hs
    have hc : (["python_ast_helper.py", "resolve_module", m].contains "--server") = false := by
      have hm2 : ("--server" == m) = false := by
        rw [beq_eq_false_iff_ne]
        exact fun e => hm e.symm
      simp [List.contains, List.elem, hm2]
    rcases Option.isSome_iff_exists.mp hs with ⟨s, hsome⟩
    simp [mainCi, hc, hsome]
    rw [if_neg (fun e => hm e.symm)]

/-- Witness for C9's amended statement across its five cases. -/
theorem c9_batch_exit_codes_witness :
    mainCi env0 ["python_ast_helper.py"] [] = ([dumpsE usageResp], 0) ∧
    appsMain env0 ["python_ast_helper.py"] = ([dumpsE appsUsageResp], 1) ∧
    (mainCi env0 ["python_ast_helper.py", "missing.py"] []).2 = 0 ∧
    (mainCi env0 ["python_ast_helper.py", "extract_imports", "missing.py"] []).2 = 0 ∧
    (mainCi env0 ["python_ast_helper.py", "resolve_module", "os"] []).2 = 0 :=
  ⟨c9_batch_exit_codes.1 env0 ["python_ast_helper.py"] []
      ⟨rfl, by decide, by decide, by decide⟩,
   c9_batch_exit_codes.2.1 env0 ["python_ast_helper.py"] (by decide),
   c9_batch_exit_codes.2.2.1 env0 "missing.py" (by decide) rfl,
   c9_batch_exit_codes.2.2.2.1 env0 "missing.py" (by decide) rfl,
   c9_batch_exit_codes.2.2.2.2 env0 "os" (by decide) rfl⟩

